import Mathlib

/-!
Shallow embedding of `check_dependence_by_org_generic.py`: the manifest
probe (`check_dep_in_repo`), the paginated repository lister
(`get_org_repos`), the input-validation prefix of `main`, and the
aggregation / rendering of the final report (console and `output.txt`).
Network effects are modelled by passing the transport outcome of each
request as a value; the result of Python's `json.loads` on a response body
is modelled as an optional JSON value (`none` = `json.JSONDecodeError`).
-/

namespace DepScan

/-- JSON values, as produced by a successful `json.loads`: the body of a
manifest response once parsed. An object is its field list in insertion
order. -/
inductive Json where
  | null
  | bool (b : Bool)
  | num (n : Int)
  | str (s : String)
  | arr (elems : List Json)
  | obj (fields : List (String × Json))

/-- Result of one call of `check_dep_in_repo`. The Python function either
returns a `(repo, status)` tuple, falls off the end and returns `None`
(a 1xx, 3xx or 2xx-other-than-200 response survives `raise_for_status`
but fails the `== 200` test), or lets an exception escape (`data.get` on a
non-dict parse result raises `AttributeError`; `{**deps, **dev_deps}` on a
non-dict value raises `TypeError` — neither is a `requests.RequestException`,
so the `except` clause does not catch them). -/
inductive ProbeResult where
  | pair (repo stat : String)
  | pyNone
  | raised
deriving DecidableEq

/-- An HTTP response as `check_dep_in_repo` observes it: the status code,
and what `json.loads` makes of the body text. -/
structure HttpResponse where
  stat : Nat
  jsonBody : Option Json

/-- Python `fields.get(key, dflt)` over the association-list model of a
JSON object (keys of a dict produced by `json.loads` are unique). -/
def pyDictGet (fields : List (String × Json)) (key : String) (dflt : Json) : Json :=
  match fields with
  | [] => dflt
  | (k, v) :: rest => if k = key then v else pyDictGet rest key dflt

/-- Python `s.startswith(p)`: code-point prefix test, case-sensitive. -/
def pyStartsWith (s p : String) : Bool :=
  p.data.isPrefixOf s.data

/-- Key sequence of the Python dict merge `{**deps, **dev_deps}`: the keys
of the first dict in order, then the keys of the second not already
present. -/
def pyDictMergeKeys (deps devDeps : List (String × Json)) : List String :=
  deps.map Prod.fst ++
    (devDeps.filter (fun q => !(deps.any (fun p => p.1 = q.1)))).map Prod.fst

/-- `check_dep_in_repo(repo, dep_prefix, ...)` of
`check_dependence_by_org_generic.py` (lines 39-63). `resp = none` models
`requests.get` itself raising a `requests.RequestException` (timeout,
connection error). `raise_for_status` raises `requests.HTTPError` — a
`RequestException`, caught below — exactly for status codes in [400, 600). -/
def check_dep_in_repo (repo dep : String) (resp : Option HttpResponse) : ProbeResult :=
  match resp with
  | none => ProbeResult.pair repo "Error"
  | some r =>
    if r.stat = 404 then ProbeResult.pair repo "No package.json"
    else if 400 ≤ r.stat ∧ r.stat < 600 then ProbeResult.pair repo "Error"
    else if r.stat = 200 then
      match r.jsonBody with
      | none => ProbeResult.pair repo "Error"
      | some (Json.obj fields) =>
        match pyDictGet fields "dependencies" (Json.obj []),
              pyDictGet fields "devDependencies" (Json.obj []) with
        | Json.obj deps, Json.obj devDeps =>
          if (pyDictMergeKeys deps devDeps).any (fun k => pyStartsWith k dep) then
            ProbeResult.pair repo ("Has " ++ dep)
          else
            ProbeResult.pair repo ("No " ++ dep)
        | _, _ => ProbeResult.raised
      | some _ => ProbeResult.raised
    else ProbeResult.pyNone

/-- One page fetch of the organization listing endpoint: a transport or
HTTP failure (anything `raise_for_status` or `requests.get` raises), or a
page of repository full names (the `full_name` field of each record). -/
inductive PageResult where
  | err
  | ok (names : List String)

/-- Loop of `get_org_repos` (lines 21-36). `pages pp n` is the response to
the request `?per_page=pp&page=n`. `fuel` bounds the number of iterations
so the while-loop is a total function; `none` means the loop was still
running when the fuel ran out. Returns the collected names and the number
of page fetches performed. -/
def get_org_repos_aux (pages : Nat → Nat → PageResult) :
    Nat → Nat → List String → Nat → Option (List String × Nat)
  | 0, _, _, _ => none
  | fuel + 1, page, acc, fetches =>
    match pages 100 page with
    | PageResult.err => some (acc, fetches + 1)
    | PageResult.ok data =>
      if data.isEmpty then some (acc, fetches + 1)
      else get_org_repos_aux pages fuel (page + 1) (acc ++ data) (fetches + 1)

/-- `get_org_repos(org)` (lines 11-36): pages are fetched with
`per_page=100` starting at `page=1`; an empty page or a failed fetch ends
the enumeration, returning everything collected so far. -/
def get_org_repos (pages : Nat → Nat → PageResult) (fuel : Nat) :
    Option (List String × Nat) :=
  get_org_repos_aux pages fuel 1 [] 0

/-- Python `str.strip()` whitespace set (ASCII part). -/
def pyIsSpace (c : Char) : Bool :=
  c = ' ' || c = '\t' || c = '\n' || c = '\r' || c = '\x0b' || c = '\x0c'

/-- Python `line.strip()`: drop leading and trailing whitespace. -/
def pyStrip (s : String) : String :=
  String.mk (((s.data.dropWhile pyIsSpace).reverse.dropWhile pyIsSpace).reverse)

/-- How `main` can leave its input-validation prefix (lines 80-90):
`sys.exit(1)` because the organization file does not exist, `sys.exit(1)`
because it holds no non-blank line, or proceeding to the network phase
with the stripped organization list. -/
inductive StartResult where
  | exitNoFile
  | exitNoOrgs
  | run (orgs : List String)
deriving DecidableEq

/-- Input validation of `main` (lines 80-90): `fileOk` is
`os.path.exists(txt_file)`; `lines` are the lines of the file. The
organization list is `[line.strip() for line in f if line.strip()]`. -/
def mainStart (fileOk : Bool) (lines : List String) : StartResult :=
  if !fileOk then StartResult.exitNoFile
  else
    let orgs := (lines.map pyStrip).filter (fun s => !(s == ""))
    if orgs.isEmpty then StartResult.exitNoOrgs else StartResult.run orgs

/-- Three-way comparison of two code-point sequences: Python's
lexicographic string order, used by `sorted`. -/
def charListCmp : List Char → List Char → Ordering
  | [], [] => Ordering.eq
  | [], _ :: _ => Ordering.lt
  | _ :: _, [] => Ordering.gt
  | a :: as, b :: bs =>
    if a.toNat < b.toNat then Ordering.lt
    else if b.toNat < a.toNat then Ordering.gt
    else charListCmp as bs

/-- Python string comparison. -/
def strCmp (a b : String) : Ordering :=
  charListCmp a.data b.data

/-- Python `a <= b` on strings, as a Bool. -/
def strLeB (a b : String) : Bool :=
  match strCmp a b with
  | Ordering.gt => false
  | _ => true

/-- Python `a <= b` on strings, as a Prop. -/
def strLe (a b : String) : Prop :=
  strLeB a b = true

/-- Python `p <= q` on string pairs (tuple comparison: first component,
then the second), as a Bool. -/
def pairLeB (p q : String × String) : Bool :=
  match strCmp p.1 q.1 with
  | Ordering.lt => true
  | Ordering.gt => false
  | Ordering.eq => strLeB p.2 q.2

/-- Python `p <= q` on string pairs, as a Prop. -/
def pairLe (p q : String × String) : Prop :=
  pairLeB p q = true

instance : DecidableRel strLe :=
  fun a b => inferInstanceAs (Decidable (strLeB a b = true))

instance : DecidableRel pairLe :=
  fun p q => inferInstanceAs (Decidable (pairLeB p q = true))

/-- Python `sorted(results.items())`: the `(repo, status)` pairs in tuple
order. -/
def sortPairs (l : List (String × String)) : List (String × String) :=
  List.insertionSort pairLe l

/-- Python `sorted(repos)`: repository names in lexicographic order. -/
def sortNames (l : List String) : List String :=
  List.insertionSort strLe l

/-- The `status_groups` dict literal (lines 125-130 and 145-150): the four
bucket keys, each starting empty. A Python dict literal keeps one entry
per distinct key (at the first occurrence's position), so when
`"No " + dep` collides with `"No package.json"` — that is, when `dep` is
`"package.json"` — the literal has three entries. -/
def initGroups (dep : String) : List (String × List String) :=
  if ("No " ++ dep) = "No package.json" then
    [("Has " ++ dep, []), ("No " ++ dep, []), ("Error", [])]
  else
    [("Has " ++ dep, []), ("No " ++ dep, []), ("No package.json", []), ("Error", [])]

/-- `status_groups[status].append(repo)`: append `repo` to the bucket whose
key is `status` (no bucket changes when no key matches — in Python that
case raises `KeyError`, but every status `check_dep_in_repo` returns is a
key). -/
def addToGroups (groups : List (String × List String)) (repo stat : String) :
    List (String × List String) :=
  groups.map (fun g => if g.1 = stat then (g.1, g.2 ++ [repo]) else g)

/-- The partition loop `for repo, status in sorted(results.items()):
status_groups[status].append(repo)`. -/
def fillGroups (groups : List (String × List String)) (rs : List (String × String)) :
    List (String × List String) :=
  rs.foldl (fun acc p => addToGroups acc p.1 p.2) groups

/-- The bucket keys of `status_groups`. -/
def groupKeys (dep : String) : List String :=
  (initGroups dep).map Prod.fst

/-- All repositories held by a bucket list, in bucket order. -/
def groupsRepos (groups : List (String × List String)) : List String :=
  groups.foldr (fun g acc => g.2 ++ acc) []

/-- Console rendering of one non-empty bucket (lines 134-138):
`print(f"  {status}:")` then `print(f"    {repo}")` for each sorted repo;
an empty bucket prints nothing. `print(s)` writes `s` then a newline. -/
def consoleGroup (g : String × List String) : String :=
  if g.2.isEmpty then ""
  else (("  " ++ g.1 ++ ":") ++ "\n") ++
    String.join ((sortNames g.2).map (fun r => ("    " ++ r) ++ "\n"))

/-- File rendering of one non-empty bucket (lines 154-158):
`out.write(f"  {status}:\n")` then `out.write(f"    {repo}\n")` for each
sorted repo. -/
def fileGroup (g : String × List String) : String :=
  if g.2.isEmpty then ""
  else ("  " ++ g.1 ++ ":\n") ++
    String.join ((sortNames g.2).map (fun r => "    " ++ r ++ "\n"))

/-- Console rendering of one organization's entry (lines 123-138). -/
def consoleOrgSection (dep org : String) (results : List (String × String)) : String :=
  (("\nOrganization: " ++ org) ++ "\n") ++
    String.join ((fillGroups (initGroups dep) (sortPairs results)).map consoleGroup)

/-- File rendering of one organization's entry (lines 143-158). -/
def fileOrgSection (dep org : String) (results : List (String × String)) : String :=
  ("\nOrganization: " ++ org ++ "\n") ++
    String.join ((fillGroups (initGroups dep) (sortPairs results)).map fileGroup)

/-- Console rendering of the whole report (lines 122-138): the header
`print` and then each organization's section, in insertion order of
`all_results`. -/
def consoleReport (dep : String) (allResults : List (String × List (String × String))) :
    String :=
  (("\nFinal Results for '" ++ dep ++ "' (grouped by organization and status):") ++ "\n") ++
    String.join (allResults.map (fun o => consoleOrgSection dep o.1 o.2))

/-- Rendering written to `output.txt` (lines 141-158). -/
def fileReport (dep : String) (allResults : List (String × List (String × String))) :
    String :=
  ("Final Results for '" ++ dep ++ "' (grouped by organization and status):\n") ++
    String.join (allResults.map (fun o => fileOrgSection dep o.1 o.2))

/-- The per-organization loop of `main` (lines 100-119): an organization
whose repository listing comes back empty is skipped (`if not repos:
continue`); otherwise its probe results are recorded under its name.
`lister org` is what `get_org_repos(org)` returned; `probe r` is the
status `check_dep_in_repo` assigned to repository `r` (one outcome per
repository; `as_completed` order does not change the dict's content). -/
def buildAllResults (lister : String → List String) (probe : String → String) :
    List String → List (String × List (String × String))
  | [] => []
  | org :: rest =>
    if (lister org).isEmpty then buildAllResults lister probe rest
    else (org, (lister org).map (fun r => (r, probe r))) :: buildAllResults lister probe rest

/-! ### String helper lemmas -/

theorem strExt {a b : String} (h : a.data = b.data) : a = b := by
  cases a
  cases b
  cases h
  rfl

theorem strNeOfHead (s t : String) (c d : Char) (cs ds : List Char)
    (hs : s.data = c :: cs) (ht : t.data = d :: ds) (hcd : c ≠ d) : s ≠ t := by
  intro e
  apply hcd
  have h : c :: cs = d :: ds := by rw [← hs, ← ht, e]
  injection h

theorem hasNeNo (a b : String) : "Has " ++ a ≠ "No " ++ b :=
  strNeOfHead _ _ 'H' 'N' (['a', 's', ' '] ++ a.data) (['o', ' '] ++ b.data)
    (by rw [String.data_append]; rfl) (by rw [String.data_append]; rfl) (by decide)

theorem hasNeErr (a : String) : "Has " ++ a ≠ "Error" :=
  strNeOfHead _ _ 'H' 'E' (['a', 's', ' '] ++ a.data) ['r', 'r', 'o', 'r']
    (by rw [String.data_append]; rfl) rfl (by decide)

theorem noNeErr (a : String) : "No " ++ a ≠ "Error" :=
  strNeOfHead _ _ 'N' 'E' (['o', ' '] ++ a.data) ['r', 'r', 'o', 'r']
    (by rw [String.data_append]; rfl) rfl (by decide)

theorem hasNeNoManifest (a : String) : "Has " ++ a ≠ "No package.json" := by
  have h : "No package.json" = "No " ++ "package.json" := rfl
  rw [h]
  exact hasNeNo a "package.json"

/-! ### Lexicographic-order lemmas for the sort relations -/

theorem charListCmp_eq_iff (a : List Char) :
    ∀ (b : List Char), charListCmp a b = Ordering.eq ↔ a = b := by
  induction a with
  | nil =>
    intro b
    cases b <;> simp [charListCmp]
  | cons a as ih =>
    intro b
    cases b with
    | nil => simp [charListCmp]
    | cons b bs =>
      by_cases h1 : a.toNat < b.toNat
      · simp only [charListCmp, if_pos h1]
        constructor
        · intro h
          exact absurd h (by decide)
        · intro h
          injection h with hh _
          subst hh
          exact absurd h1 (lt_irrefl _)
      · by_cases h2 : b.toNat < a.toNat
        · simp only [charListCmp, if_neg h1, if_pos h2]
          constructor
          · intro h
            exact absurd h (by decide)
          · intro h
            injection h with hh _
            subst hh
            exact absurd h2 (lt_irrefl _)
        · have hab : a = b := Char.ext (UInt32.ext (show a.toNat = b.toNat by omega))
          simp only [charListCmp, if_neg h1, if_neg h2]
          rw [ih bs]
          subst hab
          simp

theorem charListCmp_swap (a : List Char) :
    ∀ (b : List Char), charListCmp b a = (charListCmp a b).swap := by
  induction a with
  | nil =>
    intro b
    cases b <;> simp [charListCmp, Ordering.swap]
  | cons a as ih =>
    intro b
    cases b with
    | nil => simp [charListCmp, Ordering.swap]
    | cons b bs =>
      by_cases h1 : a.toNat < b.toNat
      · have h2 : ¬ b.toNat < a.toNat := by omega
        simp [charListCmp, h1, h2, Ordering.swap]
      · by_cases h2 : b.toNat < a.toNat
        · simp [charListCmp, h1, h2, Ordering.swap]
        · simp [charListCmp, h1, h2, Ordering.swap, ih bs]

theorem charListCmp_le_trans (a : List Char) :
    ∀ (b c : List Char), charListCmp a b ≠ Ordering.gt →
      charListCmp b c ≠ Ordering.gt → charListCmp a c ≠ Ordering.gt := by
  induction a with
  | nil =>
    intro b c _ _
    cases c <;> simp [charListCmp]
  | cons a as ih =>
    intro b c h1 h2
    cases b with
    | nil => simp [charListCmp] at h1
    | cons b bs =>
      cases c with
      | nil => simp [charListCmp] at h2
      | cons c cs =>
        by_cases hab : a.toNat < b.toNat
        · by_cases hbc : b.toNat < c.toNat
          · have hac : a.toNat < c.toNat := by omega
            simp [charListCmp, hac]
          · by_cases hcb : c.toNat < b.toNat
            · simp [charListCmp, hbc, hcb] at h2
            · have hac : a.toNat < c.toNat := by omega
              simp [charListCmp, hac]
        · by_cases hba : b.toNat < a.toNat
          · simp [charListCmp, hab, hba] at h1
          · by_cases hbc : b.toNat < c.toNat
            · have hac : a.toNat < c.toNat := by omega
              simp [charListCmp, hac]
            · by_cases hcb : c.toNat < b.toNat
              · simp [charListCmp, hbc, hcb] at h2
              · have hac1 : ¬ a.toNat < c.toNat := by omega
                have hac2 : ¬ c.toNat < a.toNat := by omega
                simp [charListCmp, hab, hba] at h1
                simp [charListCmp, hbc, hcb] at h2
                simp [charListCmp, hac1, hac2]
                exact ih bs cs h1 h2

theorem strCmp_eq_iff (a b : String) : strCmp a b = Ordering.eq ↔ a = b := by
  unfold strCmp
  rw [charListCmp_eq_iff]
  constructor
  · exact strExt
  · intro h
    rw [h]

theorem strCmp_swap (a b : String) : strCmp b a = (strCmp a b).swap :=
  charListCmp_swap a.data b.data

theorem strLeB_iff (a b : String) : strLeB a b = true ↔ strCmp a b ≠ Ordering.gt := by
  unfold strLeB
  cases strCmp a b <;> simp

theorem strLe_total (a b : String) : strLe a b ∨ strLe b a := by
  unfold strLe
  rw [strLeB_iff, strLeB_iff, strCmp_swap a b]
  cases strCmp a b
  · exact Or.inl (by decide)
  · exact Or.inl (by decide)
  · exact Or.inr (by decide)

theorem strLe_trans {a b c : String} (h1 : strLe a b) (h2 : strLe b c) : strLe a c := by
  unfold strLe at h1 h2 ⊢
  rw [strLeB_iff] at h1 h2 ⊢
  exact charListCmp_le_trans a.data b.data c.data h1 h2

theorem strLe_antisymm {a b : String} (h1 : strLe a b) (h2 : strLe b a) : a = b := by
  unfold strLe at h1 h2
  rw [strLeB_iff] at h1 h2
  rw [strCmp_swap a b] at h2
  apply (strCmp_eq_iff a b).mp
  cases h : strCmp a b
  · rw [h] at h2
    exact absurd (by decide) h2
  · rfl
  · exact absurd h h1

theorem strCmp_lt_trans {a b c : String} (h1 : strCmp a b = Ordering.lt)
    (h2 : strCmp b c = Ordering.lt) : strCmp a c = Ordering.lt := by
  have e1 : charListCmp a.data b.data ≠ Ordering.gt := by
    unfold strCmp at h1
    simp [h1]
  have e2 : charListCmp b.data c.data ≠ Ordering.gt := by
    unfold strCmp at h2
    simp [h2]
  have e3 : strCmp a c ≠ Ordering.gt := charListCmp_le_trans _ _ _ e1 e2
  cases h : strCmp a c
  · rfl
  · have hac : a = c := (strCmp_eq_iff _ _).mp h
    subst hac
    rw [strCmp_swap a b, h1] at h2
    exact absurd h2 (by decide)
  · exact absurd h e3

theorem pairLeB_iff (p q : String × String) :
    pairLeB p q = true ↔
      (strCmp p.1 q.1 = Ordering.lt ∨
        (strCmp p.1 q.1 = Ordering.eq ∧ strLeB p.2 q.2 = true)) := by
  unfold pairLeB
  cases strCmp p.1 q.1 <;> simp

theorem pairLe_total (p q : String × String) : pairLe p q ∨ pairLe q p := by
  unfold pairLe
  rw [pairLeB_iff, pairLeB_iff]
  cases h : strCmp p.1 q.1
  · exact Or.inl (Or.inl rfl)
  · have hpq : p.1 = q.1 := (strCmp_eq_iff _ _).mp h
    have hqp : strCmp q.1 p.1 = Ordering.eq := (strCmp_eq_iff _ _).mpr hpq.symm
    rcases strLe_total p.2 q.2 with hs | hs
    · exact Or.inl (Or.inr ⟨rfl, hs⟩)
    · exact Or.inr (Or.inr ⟨hqp, hs⟩)
  · have hlt : strCmp q.1 p.1 = Ordering.lt := by
      rw [strCmp_swap p.1 q.1, h]
      rfl
    exact Or.inr (Or.inl hlt)

theorem pairLe_trans {p q r : String × String} (h1 : pairLe p q) (h2 : pairLe q r) :
    pairLe p r := by
  unfold pairLe at h1 h2 ⊢
  rw [pairLeB_iff] at h1 h2 ⊢
  rcases h1 with h1 | ⟨h1e, h1s⟩ <;> rcases h2 with h2 | ⟨h2e, h2s⟩
  · exact Or.inl (strCmp_lt_trans h1 h2)
  · left
    rw [← (strCmp_eq_iff _ _).mp h2e]
    exact h1
  · left
    rw [(strCmp_eq_iff _ _).mp h1e]
    exact h2
  · right
    constructor
    · rw [(strCmp_eq_iff _ _).mp h1e, (strCmp_eq_iff _ _).mp h2e]
      exact (strCmp_eq_iff _ _).mpr rfl
    · exact strLe_trans (a := p.2) (b := q.2) (c := r.2) h1s h2s

theorem pairLe_antisymm {p q : String × String} (h1 : pairLe p q) (h2 : pairLe q p) :
    p = q := by
  unfold pairLe at h1 h2
  rw [pairLeB_iff] at h1 h2
  rcases h1 with h1 | ⟨h1e, h1s⟩ <;> rcases h2 with h2 | ⟨h2e, h2s⟩
  · rw [strCmp_swap p.1 q.1, h1] at h2
    exact absurd h2 (by decide)
  · rw [(strCmp_eq_iff _ _).mp h2e] at h1
    rw [(strCmp_eq_iff _ _).mpr rfl] at h1
    exact absurd h1 (by decide)
  · rw [(strCmp_eq_iff _ _).mp h1e] at h2
    rw [(strCmp_eq_iff _ _).mpr rfl] at h2
    exact absurd h2 (by decide)
  · have ha : p.1 = q.1 := (strCmp_eq_iff _ _).mp h1e
    have hb : p.2 = q.2 := strLe_antisymm h1s h2s
    exact Prod.ext ha hb

instance : IsTotal (String × String) pairLe := ⟨pairLe_total⟩

instance : IsTrans (String × String) pairLe := ⟨fun _ _ _ => pairLe_trans⟩

instance : IsAntisymm (String × String) pairLe := ⟨fun _ _ => pairLe_antisymm⟩

/-- Python's `sorted` is a pure function of the multiset of items: two
result dicts holding the same pairs sort to the same list, however the
completion order interleaved them. -/
theorem sortPairs_congr {l l' : List (String × String)} (h : l.Perm l') :
    sortPairs l = sortPairs l' :=
  List.eq_of_perm_of_sorted
    ((List.perm_insertionSort pairLe l).trans
      (h.trans (List.perm_insertionSort pairLe l').symm))
    (List.sorted_insertionSort pairLe l)
    (List.sorted_insertionSort pairLe l')

/-! ### Bucket-partition lemmas -/

theorem addToGroups_cons (g : String × List String) (gs : List (String × List String))
    (r s : String) :
    addToGroups (g :: gs) r s =
      (if g.1 = s then (g.1, g.2 ++ [r]) else g) :: addToGroups gs r s := rfl

theorem groupsRepos_cons (g : String × List String) (gs : List (String × List String)) :
    groupsRepos (g :: gs) = g.2 ++ groupsRepos gs := rfl

theorem addToGroups_keys (gs : List (String × List String)) (r s : String) :
    (addToGroups gs r s).map Prod.fst = gs.map Prod.fst := by
  unfold addToGroups
  rw [List.map_map]
  have h : (Prod.fst ∘ fun g : String × List String =>
      if g.1 = s then (g.1, g.2 ++ [r]) else g) = Prod.fst := by
    funext g
    by_cases hg : g.1 = s <;> simp [hg]
  rw [h]

theorem groupsRepos_addToGroups (gs : List (String × List String)) (r s x : String) :
    (groupsRepos (addToGroups gs r s)).count x =
      (groupsRepos gs).count x + (if x = r then (gs.map Prod.fst).count s else 0) := by
  induction gs with
  | nil => simp [addToGroups, groupsRepos]
  | cons g gs ih =>
    rw [addToGroups_cons, groupsRepos_cons, groupsRepos_cons, List.count_append,
      List.count_append, ih, List.map_cons, List.count_cons]
    by_cases h : g.1 = s <;> by_cases hx : x = r <;>
      simp [h, hx, List.count_append] <;>
      omega

theorem groupsRepos_len_addToGroups (gs : List (String × List String)) (r s : String) :
    (groupsRepos (addToGroups gs r s)).length =
      (groupsRepos gs).length + (gs.map Prod.fst).count s := by
  induction gs with
  | nil => simp [addToGroups, groupsRepos]
  | cons g gs ih =>
    rw [addToGroups_cons, groupsRepos_cons, groupsRepos_cons, List.length_append,
      List.length_append, ih, List.map_cons, List.count_cons]
    by_cases h : g.1 = s <;> simp [h] <;> omega

theorem fillGroups_cons (gs : List (String × List String)) (p : String × String)
    (rs : List (String × String)) :
    fillGroups gs (p :: rs) = fillGroups (addToGroups gs p.1 p.2) rs := rfl

theorem fillGroups_keys (rs : List (String × String)) :
    ∀ gs : List (String × List String),
      (fillGroups gs rs).map Prod.fst = gs.map Prod.fst := by
  induction rs with
  | nil =>
    intro gs
    rfl
  | cons p rs ih =>
    intro gs
    rw [fillGroups_cons, ih, addToGroups_keys]

theorem groupsRepos_fillGroups_count (rs : List (String × String)) :
    ∀ (gs : List (String × List String)) (x : String),
      (∀ p ∈ rs, (gs.map Prod.fst).count p.2 = 1) →
      (groupsRepos (fillGroups gs rs)).count x =
        (groupsRepos gs).count x + (rs.map Prod.fst).count x := by
  induction rs with
  | nil =>
    intro gs x _
    simp [fillGroups]
  | cons p rs ih =>
    intro gs x h
    have hp : (gs.map Prod.fst).count p.2 = 1 := h p (by simp)
    have hrest : ∀ q ∈ rs, ((addToGroups gs p.1 p.2).map Prod.fst).count q.2 = 1 := by
      intro q hq
      rw [addToGroups_keys]
      exact h q (by simp [hq])
    rw [fillGroups_cons, ih _ x hrest, groupsRepos_addToGroups, hp]
    by_cases hx : x = p.1 <;> simp [hx, List.count_cons] <;> omega

theorem groupsRepos_fillGroups_length (rs : List (String × String)) :
    ∀ gs : List (String × List String),
      (∀ p ∈ rs, (gs.map Prod.fst).count p.2 = 1) →
      (groupsRepos (fillGroups gs rs)).length = (groupsRepos gs).length + rs.length := by
  induction rs with
  | nil =>
    intro gs _
    simp [fillGroups]
  | cons p rs ih =>
    intro gs h
    have hp : (gs.map Prod.fst).count p.2 = 1 := h p (by simp)
    have hrest : ∀ q ∈ rs, ((addToGroups gs p.1 p.2).map Prod.fst).count q.2 = 1 := by
      intro q hq
      rw [addToGroups_keys]
      exact h q (by simp [hq])
    rw [fillGroups_cons, ih _ hrest, groupsRepos_len_addToGroups, hp]
    simp
    omega

theorem groupsRepos_initGroups (dep : String) : groupsRepos (initGroups dep) = [] := by
  unfold initGroups
  split <;> rfl

theorem groupKeys_nodup (dep : String) : (groupKeys dep).Nodup := by
  unfold groupKeys initGroups
  split_ifs with h
  · simp [List.nodup_cons, hasNeNo, hasNeErr, noNeErr]
  · simp [List.nodup_cons, hasNeNo, hasNeErr, noNeErr, hasNeNoManifest, h]

/-! ### Rendering lemmas -/

theorem listIsEmptyFalse {α : Type} {l : List α} (h : l ≠ []) : l.isEmpty = false := by
  cases l with
  | nil => exact absurd rfl h
  | cons a as => rfl

theorem consoleGroup_eq_fileGroup : consoleGroup = fileGroup := by
  funext g
  unfold consoleGroup fileGroup
  by_cases h : g.2.isEmpty = true
  · simp [h]
  · simp only [h, if_neg, Bool.false_eq_true, not_false_eq_true]
    congr 1
    rw [String.append_assoc]
    rfl

theorem consoleOrgSection_eq_fileOrgSection : consoleOrgSection = fileOrgSection := by
  funext dep org results
  unfold consoleOrgSection fileOrgSection
  rw [consoleGroup_eq_fileGroup]

theorem consoleOrgSection_perm (dep org : String) {r r' : List (String × String)}
    (h : r.Perm r') : consoleOrgSection dep org r = consoleOrgSection dep org r' := by
  unfold consoleOrgSection
  rw [sortPairs_congr h]

/-! ### Further probe lemmas -/

theorem pairHasNePairNo (repo dep : String) :
    ProbeResult.pair repo ("Has " ++ dep) ≠ ProbeResult.pair repo ("No " ++ dep) := by
  intro h
  rw [ProbeResult.pair.injEq] at h
  exact hasNeNo dep dep h.2

theorem pyDictMergeKeys_any (deps devDeps : List (String × Json)) (f : String → Bool) :
    (pyDictMergeKeys deps devDeps).any f =
      (deps.map Prod.fst ++ devDeps.map Prod.fst).any f := by
  unfold pyDictMergeKeys
  rw [List.any_append, List.any_append]
  cases hd : (deps.map Prod.fst).any f
  · simp only [Bool.false_or]
    cases hb : (devDeps.map Prod.fst).any f
    · cases hfil : (((devDeps.filter
          (fun q => !(deps.any (fun p => p.1 = q.1)))).map Prod.fst).any f)
      · rfl
      · exfalso
        rw [List.any_eq_true] at hfil
        obtain ⟨k, hk, hfk⟩ := hfil
        rw [List.mem_map] at hk
        obtain ⟨q, hq, rfl⟩ := hk
        rw [List.mem_filter] at hq
        have hball : (devDeps.map Prod.fst).any f = true :=
          List.any_eq_true.mpr ⟨q.1, List.mem_map.mpr ⟨q, hq.1, rfl⟩, hfk⟩
        rw [hb] at hball
        exact Bool.noConfusion hball
    · rw [List.any_eq_true] at hb
      obtain ⟨k, hk, hfk⟩ := hb
      rw [List.mem_map] at hk
      obtain ⟨q, hq, rfl⟩ := hk
      by_cases hdup : deps.any (fun p => decide (p.1 = q.1)) = true
      · exfalso
        rw [List.any_eq_true] at hdup
        obtain ⟨p, hp, hpq⟩ := hdup
        have hpq2 : p.1 = q.1 := of_decide_eq_true hpq
        have hda : (deps.map Prod.fst).any f = true :=
          List.any_eq_true.mpr ⟨p.1, List.mem_map.mpr ⟨p, hp, rfl⟩, by rw [hpq2]; exact hfk⟩
        rw [hd] at hda
        exact Bool.noConfusion hda
      · have hqf : q ∈ devDeps.filter (fun q2 => !(deps.any (fun p => p.1 = q2.1))) := by
          rw [List.mem_filter]
          refine ⟨hq, ?_⟩
          have hx : (deps.any fun p => decide (p.1 = q.1)) = false :=
            Bool.eq_false_iff.mpr hdup
          rw [hx]
          rfl
        exact List.any_eq_true.mpr ⟨q.1, List.mem_map.mpr ⟨q, hqf, rfl⟩, hfk⟩
  · simp

/-! ### Claim theorems -/

/-- Claim C1: the claim says `check_dep_in_repo` is a total function from
every HTTP response and transport outcome into the four fixed status
strings. The code is not: a 2xx response other than 200 (here 204) passes
`raise_for_status`, fails the `== 200` test, and the function falls off
the end returning `None` — not a `(repo, status)` pair — contradicting
the function's own docstring `Returns: (repo, status)`. -/
theorem c1_probe_returns_none_on_2xx_not_200 :
    check_dep_in_repo "octo/app" "ag-grid" (some ⟨204, some (Json.obj [])⟩)
      = ProbeResult.pyNone
    ∧ ∀ (repo stat : String), ProbeResult.pyNone ≠ ProbeResult.pair repo stat :=
  ⟨rfl, fun _ _ h => ProbeResult.noConfusion h⟩

/-- Claim C3: a manifest fetch returning HTTP 404 is classified
`No package.json` whatever the body holds — the 404 test precedes
`raise_for_status`, so it takes precedence over the generic error rule. -/
theorem c3_404_is_no_manifest_regardless_of_body (repo dep : String) (body : Option Json) :
    check_dep_in_repo repo dep (some ⟨404, body⟩)
      = ProbeResult.pair repo "No package.json" := rfl

/-- Claim C4: an HTTP 200 response whose body fails to parse as JSON
(`json.JSONDecodeError`) is classified `Error`, and that status is never
the `No <prefix>` (MissingDependency) status. -/
theorem c4_200_unparseable_body_is_probe_error (repo dep : String) :
    check_dep_in_repo repo dep (some ⟨200, none⟩) = ProbeResult.pair repo "Error"
    ∧ ProbeResult.pair repo "Error" ≠ ProbeResult.pair repo ("No " ++ dep) := by
  refine ⟨rfl, ?_⟩
  intro h
  rw [ProbeResult.pair.injEq] at h
  exact noNeErr dep h.2.symm

/-- Claim C5: the claim states the prefix-match rule for every
successfully parsed manifest body. For a body parsing to a JSON
non-object (here the number 3) the code instead raises an uncaught
`AttributeError` (`data.get` on an `int`), so the claim holds only for
object bodies: for those, the probe answers `Has <prefix>` exactly when
some key of the union of `dependencies` and `devDependencies` starts with
the prefix (values ignored), else `No <prefix>`; the match is a plain
case-sensitive prefix test, as the three examples show. -/
theorem c5_prefix_match_rule_and_nonobject_crash :
    check_dep_in_repo "octo/app" "ag-grid" (some ⟨200, some (Json.num 3)⟩)
      = ProbeResult.raised
    ∧ (∀ (repo dep : String) (deps devDeps : List (String × Json)),
        (check_dep_in_repo repo dep
            (some ⟨200, some (Json.obj
              [("dependencies", Json.obj deps), ("devDependencies", Json.obj devDeps)])⟩)
          = ProbeResult.pair repo ("Has " ++ dep)
          ↔ ∃ k ∈ deps.map Prod.fst ++ devDeps.map Prod.fst, pyStartsWith k dep = true)
        ∧ (check_dep_in_repo repo dep
            (some ⟨200, some (Json.obj
              [("dependencies", Json.obj deps), ("devDependencies", Json.obj devDeps)])⟩)
          = ProbeResult.pair repo ("No " ++ dep)
          ↔ ¬ ∃ k ∈ deps.map Prod.fst ++ devDeps.map Prod.fst, pyStartsWith k dep = true))
    ∧ pyStartsWith "ag-grid-community" "ag-grid" = true
    ∧ pyStartsWith "AG-GRID" "ag-grid" = false
    ∧ pyStartsWith "ag-gridx" "ag-grid" = true := by
  refine ⟨rfl, ?_, by decide, by decide, by decide⟩
  intro repo dep deps devDeps
  have hred : check_dep_in_repo repo dep
      (some ⟨200, some (Json.obj
        [("dependencies", Json.obj deps), ("devDependencies", Json.obj devDeps)])⟩)
      = if (pyDictMergeKeys deps devDeps).any (fun k => pyStartsWith k dep) then
          ProbeResult.pair repo ("Has " ++ dep)
        else ProbeResult.pair repo ("No " ++ dep) := rfl
  rw [hred, pyDictMergeKeys_any]
  by_cases hany :
      (deps.map Prod.fst ++ devDeps.map Prod.fst).any (fun k => pyStartsWith k dep) = true
  · rw [if_pos hany]
    rw [List.any_eq_true] at hany
    exact ⟨iff_of_true rfl hany,
      iff_of_false (pairHasNePairNo repo dep) (not_not_intro hany)⟩
  · rw [if_neg hany]
    rw [List.any_eq_true] at hany
    exact ⟨iff_of_false (Ne.symm (pairHasNePairNo repo dep)) hany,
      iff_of_true rfl hany⟩

/-- Claim C9: the claim says absence of input is the only fatal path
(message and exit before any network activity) and every other failure
becomes a value. The value-conversion part holds for transport failures
(`RequestException` → `Error` pair) and for failed page fetches (the
lister returns what it has collected); but a 200 response whose body
parses to a JSON non-object (here an array) raises an uncaught
`AttributeError` inside the probe, which `future.result()` re-raises in
`main` — the run crashes, contradicting the claim. -/
theorem c9_failures_to_values_except_nonobject_body :
    check_dep_in_repo "octo/app" "ag-grid" (some ⟨200, some (Json.arr [])⟩)
      = ProbeResult.raised
    ∧ (∀ lines : List String, mainStart false lines = StartResult.exitNoFile)
    ∧ mainStart true ["", "   ", "\t"] = StartResult.exitNoOrgs
    ∧ (∀ repo dep : String, check_dep_in_repo repo dep none = ProbeResult.pair repo "Error")
    ∧ get_org_repos (fun _ p => if p = 1 then PageResult.ok ["octo/a"] else PageResult.err) 10
        = some (["octo/a"], 2) :=
  ⟨rfl, fun _ => rfl, rfl, fun _ _ => rfl, rfl⟩

/-- Claim C2: once every repository of an organization carries one of the
four status strings, the `status_groups` partition places each repository
in exactly one bucket: the bucket contents taken together are a
permutation of the repository names (no loss, no duplication), and their
total count equals the number of repositories. -/
theorem c2_report_partitions_all_repos (dep : String) (results : List (String × String))
    (h : ∀ p ∈ results, p.2 ∈ groupKeys dep) :
    (groupsRepos (fillGroups (initGroups dep) (sortPairs results))).length = results.length
    ∧ (groupsRepos (fillGroups (initGroups dep) (sortPairs results))).Perm
        (results.map Prod.fst) := by
  have hperm : (sortPairs results).Perm results := List.perm_insertionSort pairLe results
  have hcount1 : ∀ p ∈ sortPairs results, ((initGroups dep).map Prod.fst).count p.2 = 1 := by
    intro p hp
    exact List.count_eq_one_of_mem (groupKeys_nodup dep) (h p (hperm.subset hp))
  constructor
  · rw [groupsRepos_fillGroups_length (sortPairs results) (initGroups dep) hcount1,
      groupsRepos_initGroups]
    simp [hperm.length_eq]
  · apply List.perm_iff_count.mpr
    intro x
    rw [groupsRepos_fillGroups_count (sortPairs results) (initGroups dep) x hcount1,
      groupsRepos_initGroups]
    simp only [List.count_nil, Nat.zero_add]
    exact (hperm.map Prod.fst).count_eq x

/-- Witness instantiating `c2_report_partitions_all_repos` at a concrete
two-repository run. -/
theorem c2_report_partitions_all_repos_witness :
    (groupsRepos (fillGroups (initGroups "ag-grid")
        (sortPairs [("o/b", "Error"), ("o/a", "Has ag-grid")]))).length = 2
    ∧ (groupsRepos (fillGroups (initGroups "ag-grid")
        (sortPairs [("o/b", "Error"), ("o/a", "Has ag-grid")]))).Perm
        ([("o/b", "Error"), ("o/a", "Has ag-grid")].map Prod.fst) :=
  c2_report_partitions_all_repos "ag-grid" [("o/b", "Error"), ("o/a", "Has ag-grid")]
    (by decide)

/-- Claim C6: `get_org_repos` requests `per_page=100` pages starting at
page 1 and stops exactly on the first empty page: on a listing whose
pages have sizes 100, 100, 37, 0 it performs exactly 4 fetches and
returns exactly the 237 names, in page order. -/
theorem c6_pagination_fetches_and_count (l1 l2 l3 : List String)
    (h1 : l1.length = 100) (h2 : l2.length = 100) (h3 : l3.length = 37) (extra : Nat) :
    get_org_repos
        (fun pp p =>
          if pp = 100 then
            if p = 1 then PageResult.ok l1
            else if p = 2 then PageResult.ok l2
            else if p = 3 then PageResult.ok l3
            else PageResult.ok []
          else PageResult.err)
        (extra + 4)
      = some (l1 ++ l2 ++ l3, 4)
    ∧ (l1 ++ l2 ++ l3).length = 237 := by
  cases l1 with
  | nil => simp at h1
  | cons a as =>
    cases l2 with
    | nil => simp at h2
    | cons b bs =>
      cases l3 with
      | nil => simp at h3
      | cons c cs =>
        refine ⟨rfl, ?_⟩
        simp only [List.length_append, List.length_cons] at h1 h2 h3 ⊢
        omega

/-- Witness instantiating `c6_pagination_fetches_and_count` on concrete
pages of 100, 100 and 37 repository names. -/
theorem c6_pagination_fetches_and_count_witness :
    get_org_repos
        (fun pp p =>
          if pp = 100 then
            if p = 1 then PageResult.ok (List.replicate 100 "octo/r")
            else if p = 2 then PageResult.ok (List.replicate 100 "octo/s")
            else if p = 3 then PageResult.ok (List.replicate 37 "octo/t")
            else PageResult.ok []
          else PageResult.err)
        (0 + 4)
      = some (List.replicate 100 "octo/r" ++ List.replicate 100 "octo/s"
          ++ List.replicate 37 "octo/t", 4)
    ∧ (List.replicate 100 "octo/r" ++ List.replicate 100 "octo/s"
        ++ List.replicate 37 "octo/t").length = 237 :=
  c6_pagination_fetches_and_count (List.replicate 100 "octo/r")
    (List.replicate 100 "octo/s") (List.replicate 37 "octo/t")
    (by simp) (by simp) (by simp) 0

/-- Counterexample to claim C7: on a run with no organization entries the
console rendering starts with a blank line (`print(f"\nFinal Results
...")`) while the file rendering does not (`out.write(f"Final Results
...\n")`), so the two renderings are not byte-identical. -/
theorem c7_renderings_differ_on_empty_run :
    consoleReport "ag-grid" [] ≠ fileReport "ag-grid" [] := by decide

/-- Claim C7 (amended): the console rendering of the final report equals
one newline followed by the persisted-file rendering — the two renderings
agree byte-for-byte except for the one extra leading blank line the
console version prints. -/
theorem c7_console_equals_newline_plus_file (dep : String)
    (allResults : List (String × List (String × String))) :
    consoleReport dep allResults = "\n" ++ fileReport dep allResults := by
  unfold consoleReport fileReport
  rw [consoleOrgSection_eq_fileOrgSection]
  apply strExt
  simp only [String.data_append]
  simp [List.append_assoc, List.cons_append, List.singleton_append]

/-- Claim C8: the rendered report is invariant under the order in which
probe futures complete: two runs whose per-organization result sets hold
the same `(repo, status)` pairs — in any order — render byte-identical
console and file reports (repositories are sorted inside each bucket and
organization order follows the input list). -/
theorem c8_report_invariant_under_completion_order (dep : String)
    (a b : List (String × List (String × String)))
    (h : List.Forall₂ (fun x y => x.1 = y.1 ∧ x.2.Perm y.2) a b) :
    consoleReport dep a = consoleReport dep b ∧ fileReport dep a = fileReport dep b := by
  have hmap : a.map (fun o => consoleOrgSection dep o.1 o.2)
      = b.map (fun o => consoleOrgSection dep o.1 o.2) := by
    induction h with
    | nil => rfl
    | @cons x y l1 l2 hxy hrest ih =>
      simp only [List.map_cons]
      rw [ih]
      rcases hxy with ⟨hx1, hx2⟩
      have hsec : consoleOrgSection dep x.1 x.2 = consoleOrgSection dep y.1 y.2 := by
        rw [hx1]
        exact consoleOrgSection_perm dep y.1 hx2
      rw [hsec]
  constructor
  · unfold consoleReport
    rw [hmap]
  · unfold fileReport
    rw [← consoleOrgSection_eq_fileOrgSection, hmap]

/-- Witness instantiating `c8_report_invariant_under_completion_order`:
the same organization with its two probe results collected in the two
possible completion orders renders identically. -/
theorem c8_report_invariant_under_completion_order_witness :
    consoleReport "ag-grid" [("acme", [("acme/a", "Error"), ("acme/b", "No ag-grid")])]
      = consoleReport "ag-grid" [("acme", [("acme/b", "No ag-grid"), ("acme/a", "Error")])]
    ∧ fileReport "ag-grid" [("acme", [("acme/a", "Error"), ("acme/b", "No ag-grid")])]
      = fileReport "ag-grid" [("acme", [("acme/b", "No ag-grid"), ("acme/a", "Error")])] :=
  c8_report_invariant_under_completion_order "ag-grid"
    [("acme", [("acme/a", "Error"), ("acme/b", "No ag-grid")])]
    [("acme", [("acme/b", "No ag-grid"), ("acme/a", "Error")])]
    (List.Forall₂.cons ⟨rfl, by decide⟩ List.Forall₂.nil)

theorem buildAllResults_cons (lister : String → List String) (probe : String → String)
    (o : String) (rest : List String) :
    buildAllResults lister probe (o :: rest)
      = if (lister o).isEmpty then buildAllResults lister probe rest
        else (o, (lister o).map (fun r => (r, probe r))) :: buildAllResults lister probe rest :=
  rfl

/-- Claim C10: an organization whose repository listing comes back empty
(no repositories, or the first page fetch failed so the lister collected
nothing) is skipped by `main`'s loop, so the built `all_results` — and
with it both the console and the persisted rendering — are the same as if
the organization were absent from the input list: no empty entry appears
for it. -/
theorem c10_empty_listing_org_omitted (lister : String → List String)
    (probe : String → String) (orgs : List String) (org : String) (dep : String)
    (h : lister org = []) :
    buildAllResults lister probe orgs
      = buildAllResults lister probe (orgs.filter (fun o => !(o == org)))
    ∧ consoleReport dep (buildAllResults lister probe orgs)
      = consoleReport dep (buildAllResults lister probe (orgs.filter (fun o => !(o == org))))
    ∧ fileReport dep (buildAllResults lister probe orgs)
      = fileReport dep (buildAllResults lister probe (orgs.filter (fun o => !(o == org)))) := by
  have hb : buildAllResults lister probe orgs
      = buildAllResults lister probe (orgs.filter (fun o => !(o == org))) := by
    induction orgs with
    | nil => rfl
    | cons o rest ih =>
      by_cases ho : o = org
      · subst ho
        have hfil : (o :: rest).filter (fun x => !(x == o))
            = rest.filter (fun x => !(x == o)) := by
          simp [List.filter_cons]
        rw [hfil, buildAllResults_cons, h]
        simpa using ih
      · have hfil : (o :: rest).filter (fun x => !(x == org))
            = o :: rest.filter (fun x => !(x == org)) := by
          simp [List.filter_cons, ho]
        rw [hfil, buildAllResults_cons, buildAllResults_cons, ih]
  exact ⟨hb, by rw [hb], by rw [hb]⟩

/-- Witness instantiating `c10_empty_listing_org_omitted`: the
organization `ghost`, whose listing is empty, leaves no trace in the
report built for `["acme", "ghost"]`. -/
theorem c10_empty_listing_org_omitted_witness :
    buildAllResults (fun o => if o = "ghost" then [] else ["acme/r"]) (fun _ => "Error")
        ["acme", "ghost"]
      = buildAllResults (fun o => if o = "ghost" then [] else ["acme/r"]) (fun _ => "Error")
          (["acme", "ghost"].filter (fun o => !(o == "ghost")))
    ∧ consoleReport "ag-grid"
        (buildAllResults (fun o => if o = "ghost" then [] else ["acme/r"]) (fun _ => "Error")
          ["acme", "ghost"])
      = consoleReport "ag-grid"
          (buildAllResults (fun o => if o = "ghost" then [] else ["acme/r"]) (fun _ => "Error")
            (["acme", "ghost"].filter (fun o => !(o == "ghost"))))
    ∧ fileReport "ag-grid"
        (buildAllResults (fun o => if o = "ghost" then [] else ["acme/r"]) (fun _ => "Error")
          ["acme", "ghost"])
      = fileReport "ag-grid"
          (buildAllResults (fun o => if o = "ghost" then [] else ["acme/r"]) (fun _ => "Error")
            (["acme", "ghost"].filter (fun o => !(o == "ghost")))) :=
  c10_empty_listing_org_omitted (fun o => if o = "ghost" then [] else ["acme/r"])
    (fun _ => "Error") ["acme", "ghost"] "ghost" "ag-grid" rfl

end DepScan
